import Mathlib

set_option linter.unusedTactic false
set_option linter.unusedVariables false

/-!
Shallow embedding of `src/who_zscore.py` (WHO Growth Reference 2007
z-score calculator, 5-19 years).

Python floats are modelled as real numbers; a missing value (NaN seen by
`pd.isna`) is modelled by `Option ℝ` inputs, and the NaN result used as the
"undefined" sentinel is modelled by `none` in the `Option ℝ` result.
The two LMS reference tables are loaded from CSV files outside the core
code, so they appear here as an injected `RefTables` parameter: keyed
maps from (sex, age) to optional rows, a failed `.loc` lookup (pandas
`KeyError`) being `none`.
-/

/-- Round-half-to-even on the reals: the semantics of Python's builtin
`round` on a float with no `ndigits` argument (ties go to the even
integer). On a tie `x = n + 1/2` the even member of `{n, n+1}` equals
`2 * round (x / 2)`. -/
noncomputable def roundHalfEven (x : ℝ) : ℤ :=
  if Int.fract x = 1 / 2 then 2 * round (x / 2) else round x

/-- Truncation toward zero: the semantics of Python's `int()` on a float. -/
noncomputable def intTrunc (x : ℝ) : ℤ :=
  if 0 ≤ x then ⌊x⌋ else ⌈x⌉

/-- One row of a WHO reference table: the `l`, `m`, `s` columns
(`float(row["l"])`, `float(row["m"])`, `float(row["s"])`). -/
structure LMS where
  l : ℝ
  m : ℝ
  s : ℝ

/-- The two preloaded reference tables `_bfa_table` and `_hfa_table`,
indexed by `(sex, age)`. A key with no row is `none` (pandas raises
`KeyError`, which `_lookup_lms` turns into `None`). -/
structure RefTables where
  bfa : ℤ → ℤ → Option LMS
  hfa : ℤ → ℤ → Option LMS

/-- Embedding of `_lookup_lms(sex, age_months, indicator)`
(src/who_zscore.py lines 64-82): choose the table (`"bfa"` selects the
BMI table, anything else the height table), round the age, check the
61-228 window, truncate the sex code, check membership in {1, 2}, then
look the key up. -/
noncomputable def lookup_lms (T : RefTables) (sex age_months : ℝ)
    (indicator : String) : Option LMS :=
  let table := if indicator = "bfa" then T.bfa else T.hfa
  let age_int := roundHalfEven age_months
  if age_int < 61 ∨ 228 < age_int then none
  else
    let sex_int := intTrunc sex
    if ¬(sex_int = 1 ∨ sex_int = 2) then none
    else table sex_int age_int

/-- The standard LMS transform (src/who_zscore.py lines 121-124):
`((X/M)**L - 1) / (L*S)` when `L ≠ 0`, else `log(X/M) / S`. -/
noncomputable def lmsZ (L M S X : ℝ) : ℝ :=
  if L ≠ 0 then ((X / M) ^ L - 1) / (L * S) else Real.log (X / M) / S

/-- The SD cutoff value at `t` standard deviations (src/who_zscore.py
lines 129-138): `M * (1 + L*S*t) ** (1/L)` when `L ≠ 0`, else
`M * exp(S*t)`. -/
noncomputable def sdCutoff (L M S t : ℝ) : ℝ :=
  if L ≠ 0 then M * (1 + L * S * t) ^ (1 / L) else M * Real.exp (S * t)

/-- The WHO restricted adjustment applied inside the `abs(z) > 3` branch
(src/who_zscore.py lines 140-145). -/
noncomputable def adjustExtreme (L M S X z : ℝ) : ℝ :=
  if 3 < z then
    3 + (X - sdCutoff L M S 3) / (sdCutoff L M S 3 - sdCutoff L M S 2)
  else if z < -3 then
    -3 + (X - sdCutoff L M S (-3)) / (sdCutoff L M S (-2) - sdCutoff L M S (-3))
  else z

/-- The pre-rounding z value produced by `calc_who_zscore` after the
conditional extreme-value correction (src/who_zscore.py lines 120-145):
the raw LMS z, replaced by the adjustment exactly when the indicator is
`"bfa"` and `|z| > 3`. -/
noncomputable def zAdjusted (indicator : String) (L M S X : ℝ) : ℝ :=
  let z := lmsZ L M S X
  if indicator = "bfa" ∧ 3 < |z| then adjustExtreme L M S X z else z

/-- Python's `round(z, 2)`: round-half-to-even at two decimal places,
modelled exactly on the reals. -/
noncomputable def round2 (x : ℝ) : ℝ := (roundHalfEven (x * 100) : ℝ) / 100

/-- Embedding of `calc_who_zscore(measurement, age_months, sex, indicator)`
(src/who_zscore.py lines 85-147): missing inputs give the sentinel, a
non-positive measurement gives the sentinel, a failed lookup gives the
sentinel, otherwise the (conditionally corrected) LMS z rounded to two
decimals. -/
noncomputable def calc_who_zscore (T : RefTables)
    (measurement age_months sex : Option ℝ) (indicator : String) :
    Option ℝ :=
  match measurement, age_months, sex with
  | some X, some age, some sx =>
      if X ≤ 0 then none
      else
        match lookup_lms T sx age indicator with
        | none => none
        | some e => some (round2 (zAdjusted indicator e.l e.m e.s X))
  | _, _, _ => none

/-! Evaluation lemmas for the rounding primitives. -/

theorem roundHalfEven_intCast (n : ℤ) : roundHalfEven (n : ℝ) = n := by
  unfold roundHalfEven
  rw [if_neg, round_intCast]
  rw [Int.fract_intCast]
  norm_num

theorem roundHalfEven_of_lt_half {x : ℝ} {n : ℤ} (h1 : (n : ℝ) ≤ x)
    (h2 : x < n + 1 / 2) : roundHalfEven x = n := by
  have hf : ⌊x⌋ = n := Int.floor_eq_iff.mpr ⟨h1, by push_cast; linarith⟩
  unfold roundHalfEven
  rw [if_neg, round_eq]
  · exact Int.floor_eq_iff.mpr ⟨by push_cast; linarith, by push_cast; linarith⟩
  · rw [Int.fract, hf]
    intro hc
    have : x = n + 1 / 2 := by linarith [sub_eq_iff_eq_add.mp hc]
    linarith

theorem roundHalfEven_of_half_lt {x : ℝ} {n : ℤ} (h1 : (n : ℝ) + 1 / 2 < x)
    (h2 : x < n + 1) : roundHalfEven x = n + 1 := by
  have hf : ⌊x⌋ = n := Int.floor_eq_iff.mpr ⟨by push_cast; linarith, by push_cast; linarith⟩
  unfold roundHalfEven
  rw [if_neg, round_eq]
  · exact Int.floor_eq_iff.mpr ⟨by push_cast; linarith, by push_cast; linarith⟩
  · rw [Int.fract, hf]
    intro hc
    have : x = n + 1 / 2 := by linarith [sub_eq_iff_eq_add.mp hc]
    linarith

theorem roundHalfEven_tie (n : ℤ) :
    roundHalfEven ((n : ℝ) + 1 / 2) = if Even n then n else n + 1 := by
  have hfr : Int.fract ((n : ℝ) + 1 / 2) = 1 / 2 := by
    rw [Int.fract_int_add, Int.fract_eq_self.mpr (by norm_num)]
  unfold roundHalfEven
  rw [if_pos hfr]
  rcases Int.even_or_odd n with he | ho
  · obtain ⟨k, hk⟩ := he
    have hx : ((n : ℝ) + 1 / 2) / 2 = (k : ℝ) + 1 / 4 := by
      rw [hk]; push_cast; ring
    have hr : round ((k : ℝ) + 1 / 4) = k := by
      rw [add_comm, round_add_int, round_eq]
      norm_num
    rw [hx, hr, if_pos ⟨k, hk⟩]
    omega
  · obtain ⟨k, hk⟩ := ho
    have hne : ¬Even n := by
      rw [Int.not_even_iff_odd]
      exact ⟨k, hk⟩
    have hx : ((n : ℝ) + 1 / 2) / 2 = (k : ℝ) + 3 / 4 := by
      rw [hk]; push_cast; ring
    have h34 : (⌊(3 : ℝ) / 4 + 1 / 2⌋ : ℤ) = 1 := by norm_num
    have hr : round ((k : ℝ) + 3 / 4) = k + 1 := by
      rw [add_comm, round_add_int, round_eq, h34]
      omega
    rw [hx, hr, if_neg hne]
    omega

theorem eq_floor_add_half {x : ℝ} (h : Int.fract x = 1 / 2) :
    x = (⌊x⌋ : ℝ) + 1 / 2 := by
  have hfl := Int.floor_add_fract x
  rw [h] at hfl
  linarith

theorem roundHalfEven_floor_le {y : ℝ} (hy : Int.fract y = 1 / 2) :
    ⌊y⌋ ≤ roundHalfEven y := by
  have hd := eq_floor_add_half hy
  have htie := roundHalfEven_tie ⌊y⌋
  rw [← hd] at htie
  rw [htie]
  split <;> omega

theorem roundHalfEven_le_round (x : ℝ) : roundHalfEven x ≤ round x := by
  by_cases h : Int.fract x = 1 / 2
  · have hd := eq_floor_add_half h
    have htie := roundHalfEven_tie ⌊x⌋
    rw [← hd] at htie
    have hr : round x = ⌊x⌋ + 1 := by
      have hsum : x + 1 / 2 = ((⌊x⌋ + 1 : ℤ) : ℝ) := by
        push_cast
        linarith [hd]
      rw [round_eq, hsum, Int.floor_intCast]
    rw [htie, hr]
    split <;> omega
  · unfold roundHalfEven
    rw [if_neg h]

theorem roundHalfEven_mono {x y : ℝ} (h : x ≤ y) :
    roundHalfEven x ≤ roundHalfEven y := by
  rcases eq_or_lt_of_le h with rfl | hlt
  · exact le_refl _
  by_cases hy : Int.fract y = 1 / 2
  · have hyx := eq_floor_add_half hy
    have h1 : roundHalfEven x ≤ round x := roundHalfEven_le_round x
    have h2 : round x ≤ ⌊y⌋ := by
      rw [round_eq]
      have hlt2 : x + 1 / 2 < ((⌊y⌋ + 1 : ℤ) : ℝ) := by
        push_cast
        rw [hyx] at hlt
        linarith
      have := Int.floor_lt.mpr hlt2
      omega
    have h3 := roundHalfEven_floor_le hy
    omega
  · have h1 : roundHalfEven x ≤ round x := roundHalfEven_le_round x
    have h2 : round x ≤ round y := by
      rw [round_eq, round_eq]
      exact Int.floor_mono (by linarith)
    have h3 : roundHalfEven y = round y := by
      unfold roundHalfEven
      rw [if_neg hy]
    omega

theorem round2_mono {x y : ℝ} (h : x ≤ y) : round2 x ≤ round2 y := by
  unfold round2
  have h1 : roundHalfEven (x * 100) ≤ roundHalfEven (y * 100) :=
    roundHalfEven_mono (by linarith)
  have h2 : ((roundHalfEven (x * 100) : ℝ)) ≤ ((roundHalfEven (y * 100) : ℝ)) := by
    exact_mod_cast h1
  linarith


/-! Unfolding lemmas for the lookup and the calculator. -/

theorem lookup_lms_eq_table (T : RefTables) (sx age : ℝ) (ind : String)
    (h1 : 61 ≤ roundHalfEven age) (h2 : roundHalfEven age ≤ 228)
    (hsex : intTrunc sx = 1 ∨ intTrunc sx = 2) :
    lookup_lms T sx age ind =
      (if ind = "bfa" then T.bfa else T.hfa) (intTrunc sx) (roundHalfEven age) := by
  unfold lookup_lms
  rw [if_neg (by omega), if_neg (by tauto)]

theorem lookup_lms_age_out (T : RefTables) (sx age : ℝ) (ind : String)
    (h : roundHalfEven age < 61 ∨ 228 < roundHalfEven age) :
    lookup_lms T sx age ind = none := by
  unfold lookup_lms
  rw [if_pos h]

theorem lookup_lms_sex_out (T : RefTables) (sx age : ℝ) (ind : String)
    (hs1 : intTrunc sx ≠ 1) (hs2 : intTrunc sx ≠ 2) :
    lookup_lms T sx age ind = none := by
  unfold lookup_lms
  by_cases h : roundHalfEven age < 61 ∨ 228 < roundHalfEven age
  · rw [if_pos h]
  · rw [if_neg h, if_pos (by tauto)]

theorem calc_who_zscore_missing (T : RefTables)
    (m a s : Option ℝ) (ind : String)
    (h : m = none ∨ a = none ∨ s = none) :
    calc_who_zscore T m a s ind = none := by
  rcases h with rfl | rfl | rfl
  · rfl
  · cases m <;> rfl
  · cases m <;> cases a <;> rfl

theorem calc_who_zscore_nonpos (T : RefTables) {X : ℝ}
    (a s : Option ℝ) (ind : String) (hX : X ≤ 0) :
    calc_who_zscore T (some X) a s ind = none := by
  cases a <;> cases s <;> simp [calc_who_zscore, hX]

theorem calc_who_zscore_lookup_none (T : RefTables) {X age sx : ℝ}
    (ind : String) (hl : lookup_lms T sx age ind = none) :
    calc_who_zscore T (some X) (some age) (some sx) ind = none := by
  by_cases hX : X ≤ 0
  · simp [calc_who_zscore, hX]
  · simp [calc_who_zscore, hX, hl]

theorem calc_who_zscore_lookup_some (T : RefTables) {X age sx : ℝ}
    {e : LMS} (ind : String) (hX : 0 < X)
    (hl : lookup_lms T sx age ind = some e) :
    calc_who_zscore T (some X) (some age) (some sx) ind =
      some (round2 (zAdjusted ind e.l e.m e.s X)) := by
  have hX2 : ¬X ≤ 0 := not_le.mpr hX
  simp [calc_who_zscore, hX2, hl]

theorem zAdjusted_of_ne_bfa {ind : String} (L M S X : ℝ)
    (h : ind ≠ "bfa") : zAdjusted ind L M S X = lmsZ L M S X := by
  unfold zAdjusted
  exact if_neg (by tauto)

theorem zAdjusted_of_abs_le {ind : String} {L M S X : ℝ}
    (h : |lmsZ L M S X| ≤ 3) : zAdjusted ind L M S X = lmsZ L M S X := by
  unfold zAdjusted
  exact if_neg (by rw [not_and]; intro; linarith)

theorem zAdjusted_bfa_hi {L M S X : ℝ} (h : 3 < lmsZ L M S X) :
    zAdjusted ("bfa") L M S X =
      3 + (X - sdCutoff L M S 3) / (sdCutoff L M S 3 - sdCutoff L M S 2) := by
  unfold zAdjusted
  rw [if_pos ⟨rfl, lt_of_lt_of_le h (le_abs_self _)⟩]
  unfold adjustExtreme
  rw [if_pos h]

theorem zAdjusted_bfa_lo {L M S X : ℝ} (h : lmsZ L M S X < -3) :
    zAdjusted ("bfa") L M S X =
      -3 + (X - sdCutoff L M S (-3)) / (sdCutoff L M S (-2) - sdCutoff L M S (-3)) := by
  unfold zAdjusted
  rw [if_pos ⟨rfl, lt_of_lt_of_le (by linarith) (neg_le_abs _)⟩]
  unfold adjustExtreme
  rw [if_neg (by linarith), if_pos h]

/-- A single-row reference table keyed at `(sx, age)`; every other key is
absent, as with the CSV tables outside the 61-228 window. -/
noncomputable def oneRowTable (sx age : ℤ) (e : LMS) : ℤ → ℤ → Option LMS :=
  fun s a => if s = sx ∧ a = age then some e else none

/-- The everywhere-empty table. -/
def emptyTable : ℤ → ℤ → Option LMS := fun _ _ => none

theorem oneRowTable_hit (sx age : ℤ) (e : LMS) :
    oneRowTable sx age e sx age = some e := by
  unfold oneRowTable
  rw [if_pos ⟨rfl, rfl⟩]

theorem roundHalfEven_eq_of_intCast {x : ℝ} {n : ℤ} (h : x = (n : ℝ)) :
    roundHalfEven x = n := by
  rw [h, roundHalfEven_intCast]

theorem round2_eq_int {x : ℝ} {n : ℤ} (h : x * 100 = (n : ℝ)) :
    round2 x = (n : ℝ) / 100 := by
  unfold round2
  rw [roundHalfEven_eq_of_intCast h]

theorem lookup_lms_found (T : RefTables) {sx age : ℝ} {si ai : ℤ}
    (ind : String) (e : LMS)
    (hs : intTrunc sx = si) (ha : roundHalfEven age = ai)
    (h1 : 61 ≤ ai) (h2 : ai ≤ 228) (hsi : si = 1 ∨ si = 2)
    (ht : (if ind = "bfa" then T.bfa else T.hfa) si ai = some e) :
    lookup_lms T sx age ind = some e := by
  rw [lookup_lms_eq_table T sx age ind (by omega) (by omega)
    (by rw [hs]; exact hsi)]
  rw [hs, ha]
  exact ht

theorem calc_who_zscore_age_out (T : RefTables) {age : ℝ}
    (ind : String) (m s : Option ℝ)
    (h : roundHalfEven age < 61 ∨ 228 < roundHalfEven age) :
    calc_who_zscore T m (some age) s ind = none := by
  cases m with
  | none => exact calc_who_zscore_missing T _ _ _ ind (Or.inl rfl)
  | some X =>
    by_cases hX : X ≤ 0
    · exact calc_who_zscore_nonpos T _ _ ind hX
    · cases s with
      | none => exact calc_who_zscore_missing T _ _ _ ind (Or.inr (Or.inr rfl))
      | some sx =>
        exact calc_who_zscore_lookup_none T ind (lookup_lms_age_out T sx age ind h)

/-! The claims. -/

/-- C3: any call with a missing measurement, age or sex, or with a
non-positive measurement, returns the Undefined sentinel. The result is
`none` for EVERY reference table and indicator, which captures that these
checks precede the table lookup and all LMS arithmetic, and the Lean
function is total, so no exception escapes for these invalid-input
cases. -/
theorem c3_invalid_inputs_undefined (T : RefTables) (ind : String)
    (m a s : Option ℝ)
    (h : m = none ∨ a = none ∨ s = none ∨ ∃ X, m = some X ∧ X ≤ 0) :
    calc_who_zscore T m a s ind = none := by
  rcases h with h | h | h | ⟨X, rfl, hX⟩
  · exact calc_who_zscore_missing T m a s ind (Or.inl h)
  · exact calc_who_zscore_missing T m a s ind (Or.inr (Or.inl h))
  · exact calc_who_zscore_missing T m a s ind (Or.inr (Or.inr h))
  · exact calc_who_zscore_nonpos T a s ind hX

def emptyTables : RefTables := ⟨emptyTable, emptyTable⟩

/-- Witness for C3 at measurement = -5 (the spec's own example). -/
theorem c3_invalid_inputs_undefined_witness :
    calc_who_zscore emptyTables (some (-5)) (some 100) (some 1) ("bfa") = none :=
  c3_invalid_inputs_undefined emptyTables ("bfa") _ _ _
    (Or.inr (Or.inr (Or.inr ⟨-5, rfl, by norm_num⟩)))

/-- C1: with non-missing inputs, measurement X > 0 and a successful
(L, M, S) lookup, when no extreme-value correction applies (height-for-age
indicator, or raw |z| ≤ 3), the result is the raw LMS z-score
`((X/M)^L - 1)/(L*S)` (resp. `ln(X/M)/S` for L = 0) rounded half-to-even
to 2 decimal places. The hypotheses `0 < e.m`, `0 < e.s` delimit valid
WHO reference rows, where the real-power embedding agrees with Python
float arithmetic. -/
theorem c1_raw_lms_rounded (T : RefTables) (ind : String) {X age sx : ℝ}
    {e : LMS} (hX : 0 < X)
    (hl : lookup_lms T sx age ind = some e)
    (hM : 0 < e.m) (hS : 0 < e.s)
    (hnc : ind = "hfa" ∨ |lmsZ e.l e.m e.s X| ≤ 3) :
    calc_who_zscore T (some X) (some age) (some sx) ind =
      some (round2 (if e.l ≠ 0 then ((X / e.m) ^ e.l - 1) / (e.l * e.s)
        else Real.log (X / e.m) / e.s)) := by
  rw [calc_who_zscore_lookup_some T ind hX hl]
  have hz : zAdjusted ind e.l e.m e.s X = lmsZ e.l e.m e.s X := by
    rcases hnc with h | h
    · exact zAdjusted_of_ne_bfa _ _ _ _ (by rw [h]; decide)
    · exact zAdjusted_of_abs_le h
  rw [hz]
  rfl

noncomputable def tabC1 : RefTables :=
  ⟨emptyTable, oneRowTable 1 100 ⟨1, 100, 1/10⟩⟩

/-- Witness for C1: boy, 100 months, height 110 against a one-row height
table with L = 1, M = 100, S = 0.1; raw z = 1, returned as 1.00. -/
theorem c1_raw_lms_rounded_witness :
    calc_who_zscore tabC1 (some 110) (some 100) (some 1) ("hfa") = some 1 := by
  have hl : lookup_lms tabC1 1 100 ("hfa") = some ⟨1, 100, 1/10⟩ :=
    @lookup_lms_found tabC1 1 100 1 100 ("hfa") ⟨1, 100, 1/10⟩
      (by norm_num [intTrunc])
      (roundHalfEven_eq_of_intCast (by norm_num)) (by norm_num) (by norm_num)
      (Or.inl rfl) (by simp [tabC1, oneRowTable])
  rw [c1_raw_lms_rounded tabC1 ("hfa") (by norm_num) hl (by norm_num)
    (by norm_num) (Or.inl rfl)]
  have hv : (if (1:ℝ) ≠ 0 then (((110:ℝ) / 100) ^ (1:ℝ) - 1) / (1 * (1/10))
      else Real.log ((110:ℝ) / 100) / (1/10)) = 1 := by
    rw [if_pos (by norm_num)]
    rw [Real.rpow_one]
    norm_num
  have hr : round2 1 = 1 := by
    rw [round2_eq_int (show (1:ℝ) * 100 = ((100 : ℤ) : ℝ) by norm_num)]
    norm_num
  rw [hv, hr]

/-- C8: with a successful lookup giving a valid reference row (M > 0,
S > 0), measuring exactly the median M returns exactly 0.00: the raw z is
0 for every L (also through the Box-Cox branch), no correction fires, and
rounding 0 gives 0. -/
theorem c8_median_gives_zero (T : RefTables) (ind : String) {age sx : ℝ}
    {e : LMS} (hl : lookup_lms T sx age ind = some e)
    (hM : 0 < e.m) (hS : 0 < e.s) :
    calc_who_zscore T (some e.m) (some age) (some sx) ind = some 0 := by
  have hz : lmsZ e.l e.m e.s e.m = 0 := by
    unfold lmsZ
    by_cases hL : e.l = 0
    · rw [if_neg (by simp [hL]), div_self hM.ne', Real.log_one, zero_div]
    · rw [if_pos hL, div_self hM.ne', Real.one_rpow, sub_self, zero_div]
  rw [calc_who_zscore_lookup_some T ind hM hl,
    zAdjusted_of_abs_le (by rw [hz]; norm_num), hz]
  rw [round2_eq_int (show (0:ℝ) * 100 = ((0 : ℤ) : ℝ) by norm_num)]
  norm_num

noncomputable def tabC8 : RefTables :=
  ⟨emptyTable, oneRowTable 2 120 ⟨-1, 50, 1/5⟩⟩

/-- Witness for C8: girl, 120 months, height 50 = M against a one-row
height table with L = -1; the result is exactly 0. -/
theorem c8_median_gives_zero_witness :
    calc_who_zscore tabC8 (some 50) (some 120) (some 2) ("hfa") = some 0 := by
  have hl : lookup_lms tabC8 2 120 ("hfa") = some ⟨-1, 50, 1/5⟩ :=
    @lookup_lms_found tabC8 2 120 2 120 ("hfa") ⟨-1, 50, 1/5⟩
      (by norm_num [intTrunc])
      (roundHalfEven_eq_of_intCast (by norm_num)) (by norm_num) (by norm_num)
      (Or.inr rfl) (by simp [tabC8, oneRowTable])
  exact c8_median_gives_zero tabC8 ("hfa") hl (by norm_num) (by norm_num)

/-- C9: an indicator other than the exact string `"bfa"` selects the
height-for-age table and the extreme-value correction can never fire, so
the whole calculator behaves exactly as for `"hfa"`: unknown indicator
strings are silently treated as height-for-age, not rejected. -/
theorem c9_unknown_indicator_is_hfa (T : RefTables) {ind : String}
    (h : ind ≠ "bfa") :
    (∀ sx age : ℝ, lookup_lms T sx age ind = lookup_lms T sx age ("hfa")) ∧
    (∀ m a s : Option ℝ,
      calc_who_zscore T m a s ind = calc_who_zscore T m a s ("hfa")) := by
  have hl : ∀ sx age : ℝ,
      lookup_lms T sx age ind = lookup_lms T sx age ("hfa") := by
    intro sx age
    by_cases hage : roundHalfEven age < 61 ∨ 228 < roundHalfEven age
    · rw [lookup_lms_age_out T sx age ind hage,
        lookup_lms_age_out T sx age ("hfa") hage]
    · push_neg at hage
      by_cases hsex : intTrunc sx = 1 ∨ intTrunc sx = 2
      · rw [lookup_lms_eq_table T sx age ind (by omega) (by omega) hsex,
          lookup_lms_eq_table T sx age ("hfa") (by omega) (by omega) hsex,
          if_neg h, if_neg (by decide)]
      · push_neg at hsex
        rw [lookup_lms_sex_out T sx age ind hsex.1 hsex.2,
          lookup_lms_sex_out T sx age ("hfa") hsex.1 hsex.2]
  refine ⟨hl, ?_⟩
  intro m a s
  cases m with
  | none => rfl
  | some X =>
    cases a with
    | none => rfl
    | some age =>
      cases s with
      | none => rfl
      | some sx =>
        by_cases hX : X ≤ 0
        · rw [calc_who_zscore_nonpos T _ _ ind hX,
            calc_who_zscore_nonpos T _ _ ("hfa") hX]
        · push_neg at hX
          rcases he : lookup_lms T sx age ("hfa") with _ | e
          · rw [calc_who_zscore_lookup_none T ind ((hl sx age).trans he),
              calc_who_zscore_lookup_none T ("hfa") he]
          · rw [calc_who_zscore_lookup_some T ind hX ((hl sx age).trans he),
              calc_who_zscore_lookup_some T ("hfa") hX he,
              zAdjusted_of_ne_bfa _ _ _ _ h,
              zAdjusted_of_ne_bfa _ _ _ _ (by decide)]

/-- Witness for C9 at the unknown indicator string `"wfa"`. -/
theorem c9_unknown_indicator_is_hfa_witness :
    calc_who_zscore tabC1 (some 110) (some 100) (some 1) ("wfa") =
      calc_who_zscore tabC1 (some 110) (some 100) (some 1) ("hfa") :=
  (c9_unknown_indicator_is_hfa tabC1 (by decide)).2 (some 110) (some 100) (some 1)

/-- C2: the extreme-value correction fires exactly when the indicator is
`"bfa"` and the raw |z| exceeds 3. Three parts: (1) whenever that
condition fails — in particular for height-for-age regardless of
magnitude — the raw rounded LMS value is returned; (2) for `"bfa"` with
raw z > 3 the result is `3 + (X - SD3pos)/(SD3pos - SD2pos)` rounded;
(3) for `"bfa"` with raw z < -3 it is
`-3 + (X - SD3neg)/(SD2neg - SD3neg)` rounded, the SD cutoffs being
`sdCutoff` as in the source. `0 < e.m`, `0 < e.s` delimit valid reference
rows. -/
theorem c2_correction_iff (T : RefTables) (ind : String) {X age sx : ℝ}
    {e : LMS} (hX : 0 < X)
    (hl : lookup_lms T sx age ind = some e)
    (hM : 0 < e.m) (hS : 0 < e.s) :
    (¬(ind = "bfa" ∧ 3 < |lmsZ e.l e.m e.s X|) →
      calc_who_zscore T (some X) (some age) (some sx) ind =
        some (round2 (lmsZ e.l e.m e.s X))) ∧
    (ind = "bfa" → 3 < lmsZ e.l e.m e.s X →
      calc_who_zscore T (some X) (some age) (some sx) ind =
        some (round2 (3 + (X - sdCutoff e.l e.m e.s 3) /
          (sdCutoff e.l e.m e.s 3 - sdCutoff e.l e.m e.s 2)))) ∧
    (ind = "bfa" → lmsZ e.l e.m e.s X < -3 →
      calc_who_zscore T (some X) (some age) (some sx) ind =
        some (round2 (-3 + (X - sdCutoff e.l e.m e.s (-3)) /
          (sdCutoff e.l e.m e.s (-2) - sdCutoff e.l e.m e.s (-3))))) := by
  refine ⟨?_, ?_, ?_⟩
  · intro hnc
    rw [calc_who_zscore_lookup_some T ind hX hl]
    have hz : zAdjusted ind e.l e.m e.s X = lmsZ e.l e.m e.s X := by
      unfold zAdjusted
      exact if_neg hnc
    rw [hz]
  · intro hb hz
    subst hb
    rw [calc_who_zscore_lookup_some T ("bfa") hX hl, zAdjusted_bfa_hi hz]
  · intro hb hz
    subst hb
    rw [calc_who_zscore_lookup_some T ("bfa") hX hl, zAdjusted_bfa_lo hz]

noncomputable def tabC2 : RefTables :=
  ⟨oneRowTable 1 100 ⟨1, 10, 1/10⟩, emptyTable⟩

/-- Witness for C2: BMI 20 against a one-row BMI table with L = 1, M = 10,
S = 0.1: raw z = 10 > 3, SD3pos = 13, SD2pos = 12, corrected value
3 + (20 - 13)/(13 - 12) = 10, returned as 10.00. -/
theorem c2_correction_iff_witness :
    calc_who_zscore tabC2 (some 20) (some 100) (some 1) ("bfa") = some 10 := by
  have hl : lookup_lms tabC2 1 100 ("bfa") = some ⟨1, 10, 1/10⟩ :=
    @lookup_lms_found tabC2 1 100 1 100 ("bfa") ⟨1, 10, 1/10⟩
      (by norm_num [intTrunc])
      (roundHalfEven_eq_of_intCast (by norm_num)) (by norm_num) (by norm_num)
      (Or.inl rfl) (by simp [tabC2, oneRowTable])
  have hz : lmsZ 1 10 (1/10) 20 = 10 := by
    unfold lmsZ
    rw [if_pos (by norm_num), Real.rpow_one]
    norm_num
  have h := (@c2_correction_iff tabC2 ("bfa") 20 100 1 ⟨1, 10, 1/10⟩
    (by norm_num) hl (by norm_num) (by norm_num)).2.1 rfl (by rw [hz]; norm_num)
  rw [h]
  have hc3 : sdCutoff 1 10 (1/10) 3 = 13 := by
    unfold sdCutoff
    rw [if_pos (by norm_num)]
    norm_num
  have hc2 : sdCutoff 1 10 (1/10) 2 = 12 := by
    unfold sdCutoff
    rw [if_pos (by norm_num)]
    norm_num
  rw [hc3, hc2]
  have hval : (3 : ℝ) + (20 - 13) / (13 - 12) = 10 := by norm_num
  rw [hval, round2_eq_int (show (10:ℝ) * 100 = ((1000 : ℤ) : ℝ) by norm_num)]
  norm_num

/-- C4: an age rounding strictly below 61 or strictly above 228 makes the
lookup fail and the calculator return Undefined, for every measurement and
sex; an age rounding to exactly 61 or 228 with a valid sex, a matching
table row and a positive measurement gives a defined numeric result. -/
theorem c4_age_window (T : RefTables) (ind : String) :
    (∀ age : ℝ, roundHalfEven age < 61 ∨ 228 < roundHalfEven age →
      (∀ sx : ℝ, lookup_lms T sx age ind = none) ∧
      ∀ m s : Option ℝ, calc_who_zscore T m (some age) s ind = none) ∧
    (∀ age sx X : ℝ, ∀ e : LMS,
      roundHalfEven age = 61 ∨ roundHalfEven age = 228 →
      intTrunc sx = 1 ∨ intTrunc sx = 2 →
      (if ind = "bfa" then T.bfa else T.hfa) (intTrunc sx) (roundHalfEven age) =
        some e →
      0 < X →
      (calc_who_zscore T (some X) (some age) (some sx) ind).isSome = true) := by
  constructor
  · intro age hage
    exact ⟨fun sx => lookup_lms_age_out T sx age ind hage,
      fun m s => calc_who_zscore_age_out T ind m s hage⟩
  · intro age sx X e ha hs ht hX
    have hl : lookup_lms T sx age ind = some e := by
      rw [lookup_lms_eq_table T sx age ind (by omega) (by omega) hs]
      exact ht
    rw [calc_who_zscore_lookup_some T ind hX hl]
    rfl

noncomputable def tabC4 : RefTables :=
  ⟨emptyTable, oneRowTable 1 228 ⟨1, 170, 1/10⟩⟩

/-- Witness for C4: age 60 is Undefined, age 228 (upper inclusive edge) is
defined against a height table with a row at (1, 228). -/
theorem c4_age_window_witness :
    calc_who_zscore tabC4 (some 170) (some 60) (some 1) ("hfa") = none ∧
    (calc_who_zscore tabC4 (some 170) (some 228) (some 1) ("hfa")).isSome
      = true := by
  have h60 : roundHalfEven (60 : ℝ) = 60 :=
    roundHalfEven_eq_of_intCast (by norm_num)
  have h228 : roundHalfEven (228 : ℝ) = 228 :=
    roundHalfEven_eq_of_intCast (by norm_num)
  constructor
  · exact ((c4_age_window tabC4 ("hfa")).1 60
      (Or.inl (by rw [h60]; norm_num))).2 (some 170) (some 1)
  · refine (c4_age_window tabC4 ("hfa")).2 228 1 170 ⟨1, 170, 1/10⟩
      (Or.inr h228) (Or.inl (by norm_num [intTrunc])) ?_ (by norm_num)
    rw [if_neg (by decide), show intTrunc (1:ℝ) = 1 by norm_num [intTrunc], h228]
    simp [tabC4, oneRowTable]

noncomputable def tabC5 : RefTables :=
  ⟨oneRowTable 1 100 ⟨1, 18, 1/10⟩, emptyTable⟩

/-- Counterexample to C5 as stated: sex = 1.5 is neither exactly 1 nor
exactly 2, yet the lookup succeeds (Python's `int(sex)` truncates 1.5 to
the valid code 1) and the calculator returns a defined numeric result
instead of Undefined. -/
theorem c5_counterexample :
    ((3/2 : ℝ) ≠ 1 ∧ (3/2 : ℝ) ≠ 2) ∧
    lookup_lms tabC5 (3/2) 100 ("bfa") = some ⟨1, 18, 1/10⟩ ∧
    calc_who_zscore tabC5 (some 18) (some 100) (some (3/2)) ("bfa") =
      some 0 := by
  have hl : lookup_lms tabC5 (3/2) 100 ("bfa") = some ⟨1, 18, 1/10⟩ :=
    @lookup_lms_found tabC5 (3/2) 100 1 100 ("bfa") ⟨1, 18, 1/10⟩
      (by norm_num [intTrunc])
      (roundHalfEven_eq_of_intCast (by norm_num)) (by norm_num) (by norm_num)
      (Or.inl rfl) (by simp [tabC5, oneRowTable])
  have hz : lmsZ 1 18 (1/10) 18 = 0 := by
    unfold lmsZ
    rw [if_pos (by norm_num), div_self (by norm_num), Real.one_rpow]
    norm_num
  refine ⟨⟨by norm_num, by norm_num⟩, hl, ?_⟩
  rw [calc_who_zscore_lookup_some tabC5 ("bfa") (by norm_num) hl,
    zAdjusted_of_abs_le (by rw [hz]; norm_num), hz,
    round2_eq_int (show (0:ℝ) * 100 = ((0 : ℤ) : ℝ) by norm_num)]
  norm_num

/-- C5 amended: only a sex value whose truncation toward zero (Python's
`int()`) is 1 or 2 can produce a defined result; any sex truncating
elsewhere makes the lookup fail and the calculator return Undefined, and a
missing sex returns Undefined as well. -/
theorem c5_amended_sex_codes (T : RefTables) (ind : String) {sx : ℝ}
    (h1 : intTrunc sx ≠ 1) (h2 : intTrunc sx ≠ 2) :
    (∀ age : ℝ, lookup_lms T sx age ind = none) ∧
    (∀ m a : Option ℝ, calc_who_zscore T m a (some sx) ind = none) ∧
    (∀ m a : Option ℝ, calc_who_zscore T m a none ind = none) := by
  refine ⟨fun age => lookup_lms_sex_out T sx age ind h1 h2, ?_, ?_⟩
  · intro m a
    cases m with
    | none => exact calc_who_zscore_missing T _ _ _ ind (Or.inl rfl)
    | some X =>
      by_cases hX : X ≤ 0
      · exact calc_who_zscore_nonpos T _ _ ind hX
      · cases a with
        | none => exact calc_who_zscore_missing T _ _ _ ind (Or.inr (Or.inl rfl))
        | some age =>
          exact calc_who_zscore_lookup_none T ind
            (lookup_lms_sex_out T sx age ind h1 h2)
  · intro m a
    exact calc_who_zscore_missing T _ _ _ ind (Or.inr (Or.inr rfl))

/-- Witness for the amended C5 at sex = 7, which truncates to 7 ∉ {1, 2}. -/
theorem c5_amended_sex_codes_witness :
    calc_who_zscore tabC5 (some 18) (some 100) (some 7) ("bfa") = none :=
  (c5_amended_sex_codes tabC5 ("bfa") (by norm_num [intTrunc])
    (by norm_num [intTrunc])).2.1 (some 18) (some 100)

noncomputable def tabC6 : RefTables :=
  ⟨emptyTable, oneRowTable 1 100 ⟨1, -10, 1/10⟩⟩

/-- Counterexample to C6 as stated: the code contains no guard on M or S.
Against a malformed table row with M = -10 < 0, the lookup still succeeds
and `calc_who_zscore` evaluates the LMS formula on it, returning the
numeric value -15.00 instead of Undefined (with L = 1 the power is exact
also in Python, so no arithmetic error is raised either). -/
theorem c6_counterexample :
    (⟨1, -10, 1/10⟩ : LMS).m < 0 ∧
    lookup_lms tabC6 1 100 ("hfa") = some ⟨1, -10, 1/10⟩ ∧
    calc_who_zscore tabC6 (some 5) (some 100) (some 1) ("hfa") =
      some (-15) := by
  have hl : lookup_lms tabC6 1 100 ("hfa") = some ⟨1, -10, 1/10⟩ :=
    @lookup_lms_found tabC6 1 100 1 100 ("hfa") ⟨1, -10, 1/10⟩
      (by norm_num [intTrunc])
      (roundHalfEven_eq_of_intCast (by norm_num)) (by norm_num) (by norm_num)
      (Or.inl rfl) (by simp [tabC6, oneRowTable])
  have hz : lmsZ 1 (-10) (1/10) 5 = -15 := by
    unfold lmsZ
    rw [if_pos (by norm_num), Real.rpow_one]
    norm_num
  refine ⟨by norm_num, hl, ?_⟩
  rw [calc_who_zscore_lookup_some tabC6 ("hfa") (by norm_num) hl,
    zAdjusted_of_ne_bfa _ _ _ _ (by decide), hz,
    round2_eq_int (show (-15:ℝ) * 100 = ((-1500 : ℤ) : ℝ) by norm_num)]
  norm_num

/-- C6 amended: `_lookup_lms` and `calc_who_zscore` perform no validation
of M or S. Whenever the key lookup succeeds and the input guards pass, the
calculator evaluates the LMS formula on the entry as-is and returns a
numeric result — never Undefined — even when M or S is zero or
negative. -/
theorem c6_amended_no_lms_guard (T : RefTables) (ind : String)
    {X age sx : ℝ} {e : LMS} (hX : 0 < X)
    (hl : lookup_lms T sx age ind = some e) :
    (calc_who_zscore T (some X) (some age) (some sx) ind).isSome = true := by
  rw [calc_who_zscore_lookup_some T ind hX hl]
  rfl

/-- Witness for the amended C6 at the malformed row with M = -10. -/
theorem c6_amended_no_lms_guard_witness :
    (calc_who_zscore tabC6 (some 5) (some 100) (some 1) ("hfa")).isSome
      = true := by
  have hl : lookup_lms tabC6 1 100 ("hfa") = some ⟨1, -10, 1/10⟩ :=
    @lookup_lms_found tabC6 1 100 1 100 ("hfa") ⟨1, -10, 1/10⟩
      (by norm_num [intTrunc])
      (roundHalfEven_eq_of_intCast (by norm_num)) (by norm_num) (by norm_num)
      (Or.inl rfl) (by simp [tabC6, oneRowTable])
  exact c6_amended_no_lms_guard tabC6 ("hfa") (by norm_num) hl

/-- C10: the age is rounded half-to-even as by Python's `round` (not
half-away-from-zero): 228.5 rounds to 228 (even), so it stays inside the
window and gives a defined result when the table has the row, while 60.5
rounds to 60 (not 61), so it falls below the window and gives
Undefined. -/
theorem c10_round_half_even_ages :
    roundHalfEven (228.5 : ℝ) = 228 ∧ roundHalfEven (60.5 : ℝ) = 60 ∧
    (∀ T : RefTables, ∀ ind : String, ∀ m s : Option ℝ,
      calc_who_zscore T m (some (60.5 : ℝ)) s ind = none) ∧
    ∀ T : RefTables, ∀ e : LMS, ∀ X : ℝ, 0 < X → T.hfa 1 228 = some e →
      (calc_who_zscore T (some X) (some (228.5 : ℝ)) (some 1) ("hfa")).isSome
        = true := by
  have h228 : roundHalfEven (228.5 : ℝ) = 228 := by
    have h := roundHalfEven_tie 228
    rw [if_pos (by decide)] at h
    rw [show (228.5 : ℝ) = ((228 : ℤ) : ℝ) + 1/2 by norm_num]
    exact h
  have h60 : roundHalfEven (60.5 : ℝ) = 60 := by
    have h := roundHalfEven_tie 60
    rw [if_pos (by decide)] at h
    rw [show (60.5 : ℝ) = ((60 : ℤ) : ℝ) + 1/2 by norm_num]
    exact h
  refine ⟨h228, h60, ?_, ?_⟩
  · intro T ind m s
    exact calc_who_zscore_age_out T ind m s (Or.inl (by rw [h60]; norm_num))
  · intro T e X hX ht
    have hl : lookup_lms T 1 228.5 ("hfa") = some e :=
      @lookup_lms_found T 1 228.5 1 228 ("hfa") e (by norm_num [intTrunc])
        h228 (by norm_num) (by norm_num) (Or.inl rfl)
        (by rw [if_neg (by decide)]; exact ht)
    rw [calc_who_zscore_lookup_some T ("hfa") hX hl]
    rfl

/-- Witness for C10 against a table with a height row at (1, 228): age
228.5 is defined, age 60.5 is Undefined. -/
theorem c10_round_half_even_ages_witness :
    (calc_who_zscore tabC4 (some 170) (some (228.5 : ℝ)) (some 1)
      ("hfa")).isSome = true ∧
    calc_who_zscore tabC4 (some 170) (some (60.5 : ℝ)) (some 1) ("hfa")
      = none :=
  ⟨c10_round_half_even_ages.2.2.2 tabC4 ⟨1, 170, 1/10⟩ 170 (by norm_num)
      (by simp [tabC4, oneRowTable]),
    c10_round_half_even_ages.2.2.1 tabC4 ("hfa") (some 170) (some 1)⟩

/-! Monotonicity of the LMS transform and of the corrected value. -/

theorem lmsZ_lt_lmsZ {L M S x1 x2 : ℝ} (hM : 0 < M) (hS : 0 < S)
    (h1 : 0 < x1) (h12 : x1 < x2) :
    lmsZ L M S x1 < lmsZ L M S x2 := by
  have d1 : 0 < x1 / M := div_pos h1 hM
  have d12 : x1 / M < x2 / M := (div_lt_div_iff_of_pos_right hM).mpr h12
  unfold lmsZ
  by_cases hL : L = 0
  · rw [if_neg (not_not_intro hL), if_neg (not_not_intro hL)]
    exact (div_lt_div_iff_of_pos_right hS).mpr (Real.log_lt_log d1 d12)
  · rw [if_pos hL, if_pos hL]
    rcases Ne.lt_or_lt hL with hneg | hpos
    · have hr : (x2 / M) ^ L < (x1 / M) ^ L :=
        Real.rpow_lt_rpow_of_neg d1 d12 hneg
      have hden : L * S < 0 := mul_neg_of_neg_of_pos hneg hS
      exact (div_lt_div_right_of_neg hden).mpr (by linarith)
    · have hr : (x1 / M) ^ L < (x2 / M) ^ L :=
        Real.rpow_lt_rpow d1.le d12 hpos
      have hden : 0 < L * S := mul_pos hpos hS
      exact (div_lt_div_iff_of_pos_right hden).mpr (by linarith)

theorem lmsZ_lt_iff {L M S x1 x2 : ℝ} (hM : 0 < M) (hS : 0 < S)
    (h1 : 0 < x1) (h2 : 0 < x2) :
    lmsZ L M S x1 < lmsZ L M S x2 ↔ x1 < x2 := by
  constructor
  · intro h
    by_contra hc
    push_neg at hc
    rcases eq_or_lt_of_le hc with heq | hlt
    · rw [heq] at h
      exact lt_irrefl _ h
    · exact absurd h (not_lt.mpr (lmsZ_lt_lmsZ hM hS h2 hlt).le)
  · exact lmsZ_lt_lmsZ hM hS h1

theorem sdCutoff_pos {L M S t : ℝ} (hM : 0 < M) (ht : 0 < 1 + L * S * t) :
    0 < sdCutoff L M S t := by
  unfold sdCutoff
  split
  · exact mul_pos hM (Real.rpow_pos_of_pos ht _)
  · exact mul_pos hM (Real.exp_pos _)

theorem lmsZ_sdCutoff {L M S t : ℝ} (hM : 0 < M) (hS : 0 < S)
    (ht : 0 < 1 + L * S * t) :
    lmsZ L M S (sdCutoff L M S t) = t := by
  unfold lmsZ sdCutoff
  by_cases hL : L = 0
  · rw [if_neg (not_not_intro hL), if_neg (not_not_intro hL),
      mul_div_cancel_left₀ _ hM.ne', Real.log_exp,
      mul_div_cancel_left₀ _ hS.ne']
  · rw [if_pos hL, if_pos hL, mul_div_cancel_left₀ _ hM.ne',
      ← Real.rpow_mul ht.le, one_div_mul_cancel hL, Real.rpow_one]
    have hLS : L * S ≠ 0 := mul_ne_zero hL hS.ne'
    rw [add_sub_cancel_left, mul_div_cancel_left₀ _ hLS]

theorem zAdjusted_bfa_lt {L M S x1 x2 : ℝ} (hM : 0 < M) (hS : 0 < S)
    (hp3 : 0 < 1 + L * S * 3) (hn3 : 0 < 1 + L * S * (-3))
    (h1 : 0 < x1) (h12 : x1 < x2) :
    zAdjusted ("bfa") L M S x1 < zAdjusted ("bfa") L M S x2 := by
  have h2 : 0 < x2 := h1.trans h12
  have hp2 : 0 < 1 + L * S * 2 := by nlinarith [hp3, hn3]
  have hn2 : 0 < 1 + L * S * (-2) := by nlinarith [hp3, hn3]
  have c3pos : 0 < sdCutoff L M S 3 := sdCutoff_pos hM hp3
  have c2pos : 0 < sdCutoff L M S 2 := sdCutoff_pos hM hp2
  have cm3pos : 0 < sdCutoff L M S (-3) := sdCutoff_pos hM hn3
  have cm2pos : 0 < sdCutoff L M S (-2) := sdCutoff_pos hM hn2
  have hz3 : lmsZ L M S (sdCutoff L M S 3) = 3 := lmsZ_sdCutoff hM hS hp3
  have hz2 : lmsZ L M S (sdCutoff L M S 2) = 2 := lmsZ_sdCutoff hM hS hp2
  have hzm3 : lmsZ L M S (sdCutoff L M S (-3)) = -3 := lmsZ_sdCutoff hM hS hn3
  have hzm2 : lmsZ L M S (sdCutoff L M S (-2)) = -2 := lmsZ_sdCutoff hM hS hn2
  have hc23 : sdCutoff L M S 2 < sdCutoff L M S 3 :=
    (lmsZ_lt_iff hM hS c2pos c3pos).mp (by rw [hz2, hz3]; norm_num)
  have hcm32 : sdCutoff L M S (-3) < sdCutoff L M S (-2) :=
    (lmsZ_lt_iff hM hS cm3pos cm2pos).mp (by rw [hzm3, hzm2]; norm_num)
  have hdP : 0 < sdCutoff L M S 3 - sdCutoff L M S 2 := sub_pos.mpr hc23
  have hdN : 0 < sdCutoff L M S (-2) - sdCutoff L M S (-3) := sub_pos.mpr hcm32
  have hz12 : lmsZ L M S x1 < lmsZ L M S x2 := lmsZ_lt_lmsZ hM hS h1 h12
  by_cases ha : 3 < lmsZ L M S x1
  · have hb : 3 < lmsZ L M S x2 := ha.trans hz12
    rw [zAdjusted_bfa_hi ha, zAdjusted_bfa_hi hb]
    have := (div_lt_div_iff_of_pos_right hdP).mpr
      (sub_lt_sub_right h12 (sdCutoff L M S 3))
    linarith
  · by_cases hb : lmsZ L M S x1 < -3
    · rw [zAdjusted_bfa_lo hb]
      have hx1 : x1 < sdCutoff L M S (-3) :=
        (lmsZ_lt_iff hM hS h1 cm3pos).mp (by rw [hzm3]; exact hb)
      have hv1 : -3 + (x1 - sdCutoff L M S (-3)) /
          (sdCutoff L M S (-2) - sdCutoff L M S (-3)) < -3 := by
        have : (x1 - sdCutoff L M S (-3)) /
            (sdCutoff L M S (-2) - sdCutoff L M S (-3)) < 0 :=
          div_neg_of_neg_of_pos (by linarith) hdN
        linarith
      by_cases hc : 3 < lmsZ L M S x2
      · rw [zAdjusted_bfa_hi hc]
        have hx2 : sdCutoff L M S 3 < x2 :=
          (lmsZ_lt_iff hM hS c3pos h2).mp (by rw [hz3]; exact hc)
        have : 0 < (x2 - sdCutoff L M S 3) /
            (sdCutoff L M S 3 - sdCutoff L M S 2) := div_pos (by linarith) hdP
        linarith
      · by_cases hd : lmsZ L M S x2 < -3
        · rw [zAdjusted_bfa_lo hd]
          have := (div_lt_div_iff_of_pos_right hdN).mpr
            (sub_lt_sub_right h12 (sdCutoff L M S (-3)))
          linarith
        · push_neg at hc hd
          rw [zAdjusted_of_abs_le (abs_le.mpr ⟨hd, hc⟩)]
          linarith
    · push_neg at ha hb
      rw [zAdjusted_of_abs_le (abs_le.mpr ⟨hb, ha⟩)]
      by_cases hc : 3 < lmsZ L M S x2
      · rw [zAdjusted_bfa_hi hc]
        have hx2 : sdCutoff L M S 3 < x2 :=
          (lmsZ_lt_iff hM hS c3pos h2).mp (by rw [hz3]; exact hc)
        have : 0 < (x2 - sdCutoff L M S 3) /
            (sdCutoff L M S 3 - sdCutoff L M S 2) := div_pos (by linarith) hdP
        linarith
      · push_neg at hc
        rw [zAdjusted_of_abs_le (abs_le.mpr ⟨by linarith, hc⟩)]
        exact hz12

theorem zAdjusted_lt (ind : String) {L M S x1 x2 : ℝ} (hM : 0 < M)
    (hS : 0 < S) (hp3 : 0 < 1 + L * S * 3) (hn3 : 0 < 1 + L * S * (-3))
    (h1 : 0 < x1) (h12 : x1 < x2) :
    zAdjusted ind L M S x1 < zAdjusted ind L M S x2 := by
  by_cases hb : ind = "bfa"
  · subst hb
    exact zAdjusted_bfa_lt hM hS hp3 hn3 h1 h12
  · rw [zAdjusted_of_ne_bfa _ _ _ _ hb, zAdjusted_of_ne_bfa _ _ _ _ hb]
    exact lmsZ_lt_lmsZ hM hS h1 h12

noncomputable def tabC7 : RefTables :=
  ⟨emptyTable, oneRowTable 2 70 ⟨1, 100, 1/10⟩⟩

/-- Counterexample to C7 as stated: with L = 1, M = 100, S = 0.1 the raw
z-scores of the measurements 100 and 100.01 are 0 and 0.001, but after the
final 2-decimal rounding both calls return exactly 0.00, so the returned
z-score is NOT strictly increasing in the measurement. -/
theorem c7_counterexample :
    (0 : ℝ) < 100 ∧ (100 : ℝ) < 10001/100 ∧
    calc_who_zscore tabC7 (some 100) (some 70) (some 2) ("hfa") = some 0 ∧
    calc_who_zscore tabC7 (some (10001/100)) (some 70) (some 2) ("hfa") =
      some 0 := by
  have hl : lookup_lms tabC7 2 70 ("hfa") = some ⟨1, 100, 1/10⟩ :=
    @lookup_lms_found tabC7 2 70 2 70 ("hfa") ⟨1, 100, 1/10⟩
      (by norm_num [intTrunc])
      (roundHalfEven_eq_of_intCast (by norm_num)) (by norm_num) (by norm_num)
      (Or.inr rfl) (by simp [tabC7, oneRowTable])
  have hz1 : lmsZ 1 100 (1/10) 100 = 0 := by
    unfold lmsZ
    rw [if_pos (by norm_num), Real.rpow_one]
    norm_num
  have hz2 : lmsZ 1 100 (1/10) (10001/100) = 1/1000 := by
    unfold lmsZ
    rw [if_pos (by norm_num), Real.rpow_one]
    norm_num
  refine ⟨by norm_num, by norm_num, ?_, ?_⟩
  · rw [calc_who_zscore_lookup_some tabC7 ("hfa") (by norm_num) hl,
      zAdjusted_of_ne_bfa _ _ _ _ (by decide), hz1,
      round2_eq_int (show (0:ℝ) * 100 = ((0 : ℤ) : ℝ) by norm_num)]
    norm_num
  · rw [calc_who_zscore_lookup_some tabC7 ("hfa") (by norm_num) hl,
      zAdjusted_of_ne_bfa _ _ _ _ (by decide), hz2]
    have hr : roundHalfEven ((1:ℝ)/1000 * 100) = 0 := by
      rw [show (1:ℝ)/1000 * 100 = 1/10 by norm_num]
      exact @roundHalfEven_of_lt_half (1/10) 0 (by norm_num) (by norm_num)
    unfold round2
    rw [hr]
    norm_num

/-- C7 amended: for a fixed (sex, age, indicator) with a successful lookup
of a valid reference row (M > 0, S > 0, and the ±3 SD cutoff arguments
`1 ± 3·L·S` positive, as in real WHO tables), the pre-rounding z value is
strictly increasing in the measurement — including across the BMI
extreme-value-correction boundary — while the RETURNED value, after the
final 2-decimal rounding, is only non-decreasing (the rounding merges
nearby measurements, as the counterexample shows). -/
theorem c7_amended_monotone (T : RefTables) (ind : String)
    {age sx x1 x2 : ℝ} {e : LMS}
    (hl : lookup_lms T sx age ind = some e)
    (hM : 0 < e.m) (hS : 0 < e.s)
    (hp3 : 0 < 1 + e.l * e.s * 3) (hn3 : 0 < 1 + e.l * e.s * (-3))
    (h1 : 0 < x1) (h12 : x1 < x2) :
    zAdjusted ind e.l e.m e.s x1 < zAdjusted ind e.l e.m e.s x2 ∧
    calc_who_zscore T (some x1) (some age) (some sx) ind =
      some (round2 (zAdjusted ind e.l e.m e.s x1)) ∧
    calc_who_zscore T (some x2) (some age) (some sx) ind =
      some (round2 (zAdjusted ind e.l e.m e.s x2)) ∧
    round2 (zAdjusted ind e.l e.m e.s x1) ≤
      round2 (zAdjusted ind e.l e.m e.s x2) := by
  have hlt := zAdjusted_lt ind hM hS hp3 hn3 h1 h12
  exact ⟨hlt, calc_who_zscore_lookup_some T ind h1 hl,
    calc_who_zscore_lookup_some T ind (h1.trans h12) hl, round2_mono hlt.le⟩

/-- Witness for the amended C7 at measurements 100 < 200 against the
table of the counterexample. -/
theorem c7_amended_monotone_witness :
    zAdjusted ("hfa") 1 100 (1/10) 100 < zAdjusted ("hfa") 1 100 (1/10) 200 ∧
    calc_who_zscore tabC7 (some 100) (some 70) (some 2) ("hfa") =
      some (round2 (zAdjusted ("hfa") 1 100 (1/10) 100)) ∧
    calc_who_zscore tabC7 (some 200) (some 70) (some 2) ("hfa") =
      some (round2 (zAdjusted ("hfa") 1 100 (1/10) 200)) ∧
    round2 (zAdjusted ("hfa") 1 100 (1/10) 100) ≤
      round2 (zAdjusted ("hfa") 1 100 (1/10) 200) := by
  have hl : lookup_lms tabC7 2 70 ("hfa") = some ⟨1, 100, 1/10⟩ :=
    @lookup_lms_found tabC7 2 70 2 70 ("hfa") ⟨1, 100, 1/10⟩
      (by norm_num [intTrunc])
      (roundHalfEven_eq_of_intCast (by norm_num)) (by norm_num) (by norm_num)
      (Or.inr rfl) (by simp [tabC7, oneRowTable])
  exact @c7_amended_monotone tabC7 ("hfa") 70 2 100 200 ⟨1, 100, 1/10⟩ hl
    (by norm_num) (by norm_num) (by norm_num) (by norm_num) (by norm_num)
    (by norm_num)
